import Mathlib

/-!
Shallow embedding of src/backend/functions.py (speech-recognition-app).

The repository is a batch ETL pipeline over a speech corpus:
`audio_dataset` (Converter), `preprocess_language_dataset` (Cleaner) with
helpers `trim_silence` and `match_target_amplitude`, `check_audio_order`
(OrderVerifier) and `split_and_organize_dataset` (Splitter).

Python primitives are embedded explicitly:
* `str.replace` — leftmost, non-overlapping replacement of every
  occurrence (`pyReplace` / `pyReplaceS`);
* `str.endswith` (`pyEndsWith`);
* `sorted` on strings — lexicographic code-point order (`sortStrings`);
* the filesystem directory is a snapshot list of file names; writing a file
  adds its name if absent; removal filters the listing;
* the pydub `AudioSegment` API is a black-box capability (`AudioOps`);
* `sklearn.model_selection.train_test_split` with a seed draws a
  permutation of the rows followed by a take/drop split, the test size
  being the ceiling of the fraction times the row count.

Definitions come first, then the theorems settling the claims.
-/

/-- Worker for the embedding of Python `s.replace`: scan left to right; a
positive `skip` means we are still inside a just-replaced occurrence and the
character is consumed without output. At `skip = 0`, a match of `pat` emits
`rep` and schedules the remaining `pat.length - 1` characters of the
occurrence to be skipped; otherwise the character is copied. -/
def pyReplaceGo (pat rep : List Char) : List Char → Nat → List Char
  | [], _ => []
  | c :: cs, skip =>
    match skip with
    | Nat.succ k => pyReplaceGo pat rep cs k
    | 0 =>
      if pat ≠ [] ∧ pat.isPrefixOf (c :: cs) then
        rep ++ pyReplaceGo pat rep cs (pat.length - 1)
      else
        c :: pyReplaceGo pat rep cs 0

/-- Python `s.replace` on character lists: every non-overlapping,
leftmost-first occurrence of `pat` is replaced by `rep`.
All call sites in the source use the nonempty pattern .mp3. -/
def pyReplace (pat rep s : List Char) : List Char :=
  pyReplaceGo pat rep s 0

/-- Python `s.replace` on strings. -/
def pyReplaceS (pat rep s : String) : String :=
  ⟨pyReplace pat.data rep.data s.data⟩

/-- Python `s.endswith`. -/
def pyEndsWith (s suf : String) : Bool :=
  suf.data.isSuffixOf s.data

/-- Whether `pat` occurs as a contiguous sublist of `s` (Python membership
test of a substring). -/
def containsSub (pat : List Char) : List Char → Bool
  | [] => pat.isPrefixOf []
  | c :: cs => pat.isPrefixOf (c :: cs) || containsSub pat cs

/-- Lexicographic code-point comparison of character lists — the order Python
uses to compare strings. -/
def charListLe : List Char → List Char → Bool
  | [], _ => true
  | _ :: _, [] => false
  | a :: as, b :: bs => if a < b then true else if a = b then charListLe as bs else false

/-- Python string comparison, less-or-equal. -/
def strLe (a b : String) : Bool :=
  charListLe a.data b.data

/-- Python `sorted` on a list of strings: lexicographic code-point order. -/
def sortStrings (l : List String) : List String :=
  List.insertionSort (fun a b => strLe a b = true) l

/-- Writing files into a directory snapshot: each written name is added
unless already present (overwrites keep a single listing entry). -/
def addFiles (dir : List String) (names : List String) : List String :=
  names.foldl (fun d n => if n ∈ d then d else d ++ [n]) dir

/-- Allowed target names of the Converter (functions.py line 52): every name
of the sorted list with .mp3 replaced by .wav, as a list carrying
membership. -/
def allowedFiles (sorted_list : List String) : List String :=
  sorted_list.map (fun name => pyReplaceS ".mp3" ".wav" name)

/-- Embedding of `audio_dataset` (functions.py lines 9–69), the Converter,
with the filesystem explicit: `data_list` is the loaded path column,
`mp3_listing` the source directory listing, `initial_wav` the target
directory listing before conversion. The path column is sorted, .mp3
entries are matched against the source listing and converted (adding the
.wav names to the target snapshot), the cleanup loop removes every file of
the target directory that ends in .wav and is not allowed, and the returned
list filters the extension-mapped sorted list on existence in the target
directory. Returns the final target directory listing and the returned
sorted list of .wav files. -/
def audio_dataset (data_list mp3_listing initial_wav : List String) :
    List String × List String :=
  let sorted_list := sortStrings data_list
  let wanted_files := sorted_list.filter (fun file => pyEndsWith file ".mp3")
  let matched_files := mp3_listing.filter (fun f => f ∈ wanted_files)
  let dir_after_convert :=
    addFiles initial_wav (matched_files.map (fun file => pyReplaceS ".mp3" ".wav" file))
  let allowed_files := allowedFiles sorted_list
  let dir_final := dir_after_convert.filter
    (fun fname => ¬(pyEndsWith fname ".wav" = true ∧ fname ∉ allowed_files))
  let ordered_wav_files := sorted_list.map (fun name => pyReplaceS ".mp3" ".wav" name)
  let sorted_wav_files := ordered_wav_files.filter (fun f => f ∈ dir_final)
  (dir_final, sorted_wav_files)

/-- Separator used by the loader of `audio_dataset` (functions.py line 27):
the tab character, unconditionally. -/
def audioDatasetSep (_url_data : String) : Char := '\t'

/-- Separator used by the loader of `preprocess_language_dataset`
(functions.py line 106): the tab character, unconditionally. -/
def preprocessSep (_transcript_path : String) : Char := '\t'

/-- Separator used by the loader of `split_and_organize_dataset`
(functions.py line 259): tab when the path ends in .tsv, else comma. -/
def splitSep (transcript_path : String) : Char :=
  if pyEndsWith transcript_path ".tsv" = true then '\t' else ','

/-- Operations of the pydub audio capability used by the Cleaner, over an
abstract audio type. Durations and run boundaries are milliseconds;
loudness is in dBFS (a rational). -/
structure AudioOps (A : Type) where
  dBFS : A → ℚ
  apply_gain : A → ℚ → A
  set_channels : A → Nat → A
  set_frame_rate : A → Nat → A
  detect_nonsilent : A → Nat → Int → List (Int × Int)
  len : A → Nat
  slice : A → Int → Int → A

/-- Gain normalization `match_target_amplitude` (functions.py lines
172–177): apply a gain of the target level minus the current level. -/
def match_target_amplitude {A : Type} (ops : AudioOps A) (sound : A) (target_dBFS : ℚ) : A :=
  ops.apply_gain sound (target_dBFS - ops.dBFS sound)

/-- Silence trimming `trim_silence` (functions.py lines 157–169): detect
non-silent runs with minimum run length 200 ms at the given threshold; if
none, return the audio unchanged, else slice from the first run start minus
the padding (clamped at 0) to the last run end plus the padding (clamped at
the total length). The Python defaults are threshold -40 and padding 100. -/
def trim_silence {A : Type} (ops : AudioOps A) (audio : A)
    (silence_thresh : Int) (padding : Int) : A :=
  match ops.detect_nonsilent audio 200 silence_thresh with
  | [] => audio
  | p :: rest =>
    ops.slice audio (max 0 (p.1 - padding))
      (min (ops.len audio : Int) (((p :: rest).getLast (List.cons_ne_nil p rest)).2 + padding))

/-- Per-file transform of the Cleaner (functions.py lines 126–135):
normalize loudness to -20 dBFS, downmix to one channel, resample, then trim
silence with the default threshold and padding. -/
def cleanTransform {A : Type} (ops : AudioOps A) (sample_rate : Nat) (audio : A) : A :=
  trim_silence ops
    (ops.set_frame_rate (ops.set_channels (match_target_amplitude ops audio (-20)) 1) sample_rate)
    (-40) 100

/-- Environment of one Cleaner run: the audio capability, the source
directory existence test, and the fallible codec load and export calls. -/
structure CleanEnv (A : Type) where
  ops : AudioOps A
  src_exists : String → Bool
  from_wav : String → Except String A
  export_wav : String → A → Except String Unit

/-- One iteration of the Cleaner loop (functions.py lines 117–149) over the
accumulated pair of the missing list and the processed list. -/
def preprocessStep {A : Type} (env : CleanEnv A)
    (sample_rate min_duration_ms max_duration_ms : Nat) (file_extension : String)
    (acc : List String × List String) (filename : String) : List String × List String :=
  if env.src_exists (pyReplaceS ".mp3" file_extension filename) = false then
    (acc.1 ++ [filename], acc.2)
  else
    match env.from_wav (pyReplaceS ".mp3" file_extension filename) with
    | Except.error _ => (acc.1 ++ [filename], acc.2)
    | Except.ok audio =>
      if env.ops.len (cleanTransform env.ops sample_rate audio) < min_duration_ms ∨
          env.ops.len (cleanTransform env.ops sample_rate audio) > max_duration_ms then
        acc
      else
        match env.export_wav (pyReplaceS ".mp3" file_extension filename)
            (cleanTransform env.ops sample_rate audio) with
        | Except.error _ => (acc.1 ++ [filename], acc.2)
        | Except.ok _ => (acc.1, acc.2 ++ [pyReplaceS ".mp3" file_extension filename])

/-- Embedding of `preprocess_language_dataset` (functions.py lines 74–154),
the Cleaner: sort the path column, then run the Cleaner loop over it. The
Python defaults are sample rate 16000, duration bounds 500 and 15000 ms and
file extension .wav. -/
def preprocess_language_dataset {A : Type} (env : CleanEnv A) (data_list : List String)
    (sample_rate min_duration_ms max_duration_ms : Nat) (file_extension : String) :
    List String × List String :=
  (sortStrings data_list).foldl
    (preprocessStep env sample_rate min_duration_ms max_duration_ms file_extension) ([], [])

/-- Fate of one record in the Cleaner loop. -/
inductive CleanResult : Type
  | missing : CleanResult
  | dropped : CleanResult
  | processed : CleanResult
deriving DecidableEq

/-- Classification of one record, following exactly the branches of the
Cleaner loop: absent source or codec error gives `missing`; duration outside
the configured bounds gives `dropped`; else `processed`. -/
def cleanClass {A : Type} (env : CleanEnv A)
    (sample_rate min_duration_ms max_duration_ms : Nat) (file_extension : String)
    (filename : String) : CleanResult :=
  if env.src_exists (pyReplaceS ".mp3" file_extension filename) = false then
    CleanResult.missing
  else
    match env.from_wav (pyReplaceS ".mp3" file_extension filename) with
    | Except.error _ => CleanResult.missing
    | Except.ok audio =>
      if env.ops.len (cleanTransform env.ops sample_rate audio) < min_duration_ms ∨
          env.ops.len (cleanTransform env.ops sample_rate audio) > max_duration_ms then
        CleanResult.dropped
      else
        match env.export_wav (pyReplaceS ".mp3" file_extension filename)
            (cleanTransform env.ops sample_rate audio) with
        | Except.error _ => CleanResult.missing
        | Except.ok _ => CleanResult.processed

/-- Concrete audio capability over `Nat` used to exercise the abstract
theorems: the audio value doubles as its length in milliseconds, and the
slice operation records its bounds arithmetically. -/
def testOps : AudioOps Nat where
  dBFS := fun _ => 0
  apply_gain := fun a _ => a
  set_channels := fun a _ => a
  set_frame_rate := fun a _ => a
  detect_nonsilent := fun a _ _ => if a = 0 then [] else [(5, 300)]
  len := fun a => a
  slice := fun a s e => a + s.toNat + e.toNat

/-- Expected order of the OrderVerifier (functions.py line 183): every name
of the sorted list with .mp3 replaced by .wav. -/
def expectedOrder (sorted_list : List String) : List String :=
  sorted_list.map (fun name => pyReplaceS ".mp3" ".wav" name)

/-- Actual files of the OrderVerifier (functions.py line 186): the directory
listing filtered to names ending in .wav, sorted lexicographically. -/
def actualFiles (listing : List String) : List String :=
  sortStrings (listing.filter (fun f => pyEndsWith f ".wav"))

/-- Mismatch loop of the OrderVerifier (functions.py lines 192–195):
enumerate the positional zip of the expected and actual lists, appending the
triple of index, expected name and actual name whenever the two differ. -/
def mismatchesAux : Nat → List String → List String → List (Nat × String × String)
  | _, [], _ => []
  | _, _ :: _, [] => []
  | i, e :: es, a :: as =>
    (if e ≠ a then [(i, e, a)] else []) ++ mismatchesAux (i + 1) es as

/-- Embedding of `check_audio_order` (functions.py lines 181–204), with the
directory listing passed explicitly. -/
def check_audio_order (sorted_list listing : List String) : List (Nat × String × String) :=
  mismatchesAux 0 (expectedOrder sorted_list) (actualFiles listing)

/-- Application of a permutation of row positions to a row list. -/
def applyPerm {α : Type} (p : List Nat) (xs : List α) : List α :=
  p.filterMap (fun i => xs[i]?)

/-- Embedding of one sklearn `train_test_split` call given the permutation
the seeded PRNG produced: the first ceiling-of-fraction-times-count shuffled
rows are the test subset, the rest the train subset; returns the pair of
train and test. -/
def train_test_split {α : Type} (perm : List Nat) (frac : ℚ) (xs : List α) :
    List α × List α :=
  ((applyPerm perm xs).drop (Nat.ceil (frac * xs.length)),
   (applyPerm perm xs).take (Nat.ceil (frac * xs.length)))

/-- Rows kept by the Splitter (functions.py lines 262–265): map .mp3 to .wav
over the path column, then keep only rows whose path ends in .wav. -/
def splitFilter (rows : List (String × String)) : List (String × String) :=
  (rows.map (fun r => (pyReplaceS ".mp3" ".wav" r.1, r.2))).filter
    (fun r => pyEndsWith r.1 ".wav")

/-- Embedding of the partition part of `split_and_organize_dataset`
(functions.py lines 258–271): two sequential `train_test_split` calls, the
second with fraction valid size over one minus test size; returns the triple
of train, valid and test. The PRNG is the black-box capability: `rng seed n`
is the permutation of `List.range n` the seeded generator produces for `n`
rows (both calls construct a fresh generator from the same seed). -/
def split_and_organize_dataset (rng : Nat → Nat → List Nat) (seed : Nat)
    (rows : List (String × String)) (test_size valid_size : ℚ) :
    List (String × String) × List (String × String) × List (String × String) :=
  let df := splitFilter rows
  let first := train_test_split (rng seed df.length) test_size df
  let second := train_test_split (rng seed first.1.length)
    (valid_size / (1 - test_size)) first.1
  (second.1, second.2, first.2)

/-- Characters of the pattern .mp3. -/
def mp3Chars : List Char := ['.', 'm', 'p', '3']

/-- Characters of the replacement .wav. -/
def wavChars : List Char := ['.', 'w', 'a', 'v']

example : pyReplaceS ".mp3" ".wav" "ab.mp3cd.mp3" = "ab.wavcd.wav" := by decide
example : pyReplaceS ".mp3" ".wav" "clip.ogg" = "clip.ogg" := by decide
example : pyEndsWith "a.wav" ".wav" = true := by decide
example : sortStrings ["b.mp3", "a.mp3"] = ["a.mp3", "b.mp3"] := by decide
example :
    audio_dataset ["b.mp3", "a.mp3", "c.mp3"] ["a.mp3", "c.mp3"] [] =
      (["a.wav", "c.wav"], ["a.wav", "c.wav"]) := by decide

/-- Claim C1, counterexample: the cleanup loop only deletes files ending in
.wav; a pre-existing file junk.txt in the target directory is outside the
allowed set yet survives the Converter, so the final file set is not
contained in the allowed set. -/
theorem c1_cleanup_counterexample :
    "junk.txt" ∈ (audio_dataset ["a.mp3"] ["a.mp3"] ["junk.txt"]).1 ∧
      "junk.txt" ∉ allowedFiles (sortStrings ["a.mp3"]) := by decide

/-- Claim C1, amended: after the Converter stage runs, every file of the
target directory that ends in .wav and is not in the allowed set has been
deleted: the final directory contains no .wav file outside the allowed set
(files with other extensions are not touched by the cleanup). -/
theorem c1_cleanup_wav_only (data_list mp3_listing initial_wav : List String)
    (f : String) (hf : f ∈ (audio_dataset data_list mp3_listing initial_wav).1)
    (hw : pyEndsWith f ".wav" = true) :
    f ∈ allowedFiles (sortStrings data_list) := by
  simp only [audio_dataset, List.mem_filter, decide_not, decide_eq_true_eq, not_and,
    Bool.not_eq_true', decide_eq_false_iff_not, not_not] at hf
  exact hf.2 hw

/-- Witness for the amended claim C1 at a concrete input. -/
theorem c1_cleanup_wav_only_witness :
    "a.wav" ∈ allowedFiles (sortStrings ["a.mp3"]) :=
  c1_cleanup_wav_only ["a.mp3"] ["a.mp3"] [] "a.wav" (by decide) (by decide)

/-- Claim C2: the list returned by the Converter is exactly the
extension-mapped canonical order filtered on existence in the final target
directory — in particular an order-preserving subsequence of the
extension-mapped canonical order, never directory-listing order. -/
theorem c2_return_is_canonical_filter (data_list mp3_listing initial_wav : List String) :
    (audio_dataset data_list mp3_listing initial_wav).2 =
      (allowedFiles (sortStrings data_list)).filter
        (fun f => f ∈ (audio_dataset data_list mp3_listing initial_wav).1) ∧
    List.Sublist (audio_dataset data_list mp3_listing initial_wav).2
      (allowedFiles (sortStrings data_list)) := by
  constructor
  · rfl
  · exact List.filter_sublist _

/-- Claim C4, counterexample: a path not ending in .tsv is claimed to be
parsed comma-separated by every loader, but `audio_dataset` and
`preprocess_language_dataset` parse it tab-separated. -/
theorem c4_sep_counterexample :
    audioDatasetSep "data.csv" = '\t' ∧ preprocessSep "data.csv" = '\t' ∧
      ('\t' : Char) ≠ ',' := by decide

/-- Claim C4, amended: only `split_and_organize_dataset` selects the
delimiter from the file extension (tab for .tsv, else comma);
`audio_dataset` and `preprocess_language_dataset` always parse
tab-separated regardless of the extension. -/
theorem c4_sep_amended :
    (∀ p : String, audioDatasetSep p = '\t') ∧
    (∀ p : String, preprocessSep p = '\t') ∧
    (∀ p : String, splitSep p = ',' ↔ pyEndsWith p ".tsv" = false) := by
  refine ⟨fun _ => rfl, fun _ => rfl, fun p => ?_⟩
  unfold splitSep
  rcases h : pyEndsWith p ".tsv" with _ | _ <;> simp [h]

theorem preprocessStep_eq_class {A : Type} (env : CleanEnv A)
    (sr minD maxD : Nat) (ext : String) (m p : List String) (f : String) :
    preprocessStep env sr minD maxD ext (m, p) f =
      match cleanClass env sr minD maxD ext f with
      | CleanResult.missing => (m ++ [f], p)
      | CleanResult.dropped => (m, p)
      | CleanResult.processed => (m, p ++ [pyReplaceS ".mp3" ext f]) := by
  unfold preprocessStep cleanClass
  rcases hex : env.src_exists (pyReplaceS ".mp3" ext f) with _ | _
  · simp [hex]
  · rcases hfw : env.from_wav (pyReplaceS ".mp3" ext f) with e | audio
    · simp [hex, hfw]
    · by_cases hd : env.ops.len (cleanTransform env.ops sr audio) < minD ∨
          env.ops.len (cleanTransform env.ops sr audio) > maxD
      · simp [hex, hfw, hd]
      · rcases hexp : env.export_wav (pyReplaceS ".mp3" ext f)
            (cleanTransform env.ops sr audio) with e | u
        · simp [hex, hfw, hd, hexp]
        · simp [hex, hfw, hd, hexp]

theorem preprocess_fold_eq {A : Type} (env : CleanEnv A)
    (sr minD maxD : Nat) (ext : String) :
    ∀ (l : List String) (m p : List String),
      l.foldl (preprocessStep env sr minD maxD ext) (m, p) =
        (m ++ l.filter (fun f => decide (cleanClass env sr minD maxD ext f = CleanResult.missing)),
         p ++ (l.filter
            (fun f => decide (cleanClass env sr minD maxD ext f = CleanResult.processed))).map
            (fun f => pyReplaceS ".mp3" ext f))
  | [], m, p => by simp
  | f :: l, m, p => by
    rw [List.foldl_cons, preprocessStep_eq_class]
    rcases hc : cleanClass env sr minD maxD ext f with _ | _ | _ <;>
      simp only [] <;>
      rw [preprocess_fold_eq env sr minD maxD ext l] <;>
      simp [List.filter_cons, hc]

/-- Claim C3: the output pair of the Cleaner is exactly the canonical-order
list filtered by the per-record classification: records with absent source
or a codec error (on load or export) are appended to the missing list in
order; records whose processed duration lies inclusively between the
configured bounds have their mapped output name appended to the processed
list in order; records whose duration falls outside the bounds appear in
neither list. -/
theorem c3_cleaner_classification {A : Type} (env : CleanEnv A) (data_list : List String)
    (sr minD maxD : Nat) (ext : String) :
    preprocess_language_dataset env data_list sr minD maxD ext =
      ((sortStrings data_list).filter
          (fun f => decide (cleanClass env sr minD maxD ext f = CleanResult.missing)),
       ((sortStrings data_list).filter
          (fun f => decide (cleanClass env sr minD maxD ext f = CleanResult.processed))).map
          (fun f => pyReplaceS ".mp3" ext f)) := by
  unfold preprocess_language_dataset
  rw [preprocess_fold_eq]
  simp

/-- Claim C5: for every record the Cleaner processes, the transforms are
applied in the fixed order gain adjustment by target minus current loudness
with target -20 dBFS, then downmix to one channel, then resample to the
configured sample rate, then silence trim (threshold -40 dBFS, padding 100
ms); the duration filter then tests the trimmed length inclusively against
the configured bounds. -/
theorem c5_transform_order {A : Type} (ops : AudioOps A) (sample_rate : Nat) (audio : A) :
    cleanTransform ops sample_rate audio =
      trim_silence ops
        (ops.set_frame_rate
          (ops.set_channels (ops.apply_gain audio ((-20 : ℚ) - ops.dBFS audio)) 1)
          sample_rate)
        (-40) 100 ∧
    ∀ minD maxD : Nat,
      (¬(ops.len (cleanTransform ops sample_rate audio) < minD ∨
          ops.len (cleanTransform ops sample_rate audio) > maxD)) ↔
        (minD ≤ ops.len (cleanTransform ops sample_rate audio) ∧
          ops.len (cleanTransform ops sample_rate audio) ≤ maxD) := by
  refine ⟨rfl, fun minD maxD => ?_⟩
  omega

/-- Claim C6: `trim_silence` returns the audio unchanged when no non-silent
run is detected (minimum run length 200 ms, threshold -40 dBFS), and
otherwise returns the slice from the first run start minus 100 clamped below
by 0 to the last run end plus 100 clamped above by the total length. -/
theorem c6_trim_silence_spec {A : Type} (ops : AudioOps A) (audio : A) :
    (ops.detect_nonsilent audio 200 (-40) = [] → trim_silence ops audio (-40) 100 = audio) ∧
    (∀ (p : Int × Int) (rest : List (Int × Int)),
      ops.detect_nonsilent audio 200 (-40) = p :: rest →
        trim_silence ops audio (-40) 100 =
          ops.slice audio (max 0 (p.1 - 100))
            (min (ops.len audio : Int)
              (((p :: rest).getLast (List.cons_ne_nil p rest)).2 + 100))) := by
  constructor
  · intro h
    unfold trim_silence
    rw [h]
  · intro p rest h
    unfold trim_silence
    rw [h]

/-- Witness for claim C6: on `testOps`, the silent clip 0 is returned
unchanged and the clip 1000 with the single non-silent run from 5 to 300 is
sliced between the clamped bounds 0 and 400. -/
theorem c6_trim_silence_witness :
    trim_silence testOps 0 (-40) 100 = 0 ∧ trim_silence testOps 1000 (-40) 100 = 1400 := by
  constructor
  · exact (c6_trim_silence_spec testOps 0).1 rfl
  · exact ((c6_trim_silence_spec testOps 1000).2 (5, 300) [] rfl).trans (by decide)

theorem mem_mismatchesAux (es : List String) :
    ∀ (as : List String) (k i : Nat) (e a : String),
      ((i, e, a) ∈ mismatchesAux k es as) ↔
        ∃ j, i = k + j ∧ es[j]? = some e ∧ as[j]? = some a ∧ e ≠ a := by
  induction es with
  | nil => intro as k i e a; simp [mismatchesAux]
  | cons e' es ih =>
    intro as k i e a
    cases as with
    | nil => simp [mismatchesAux]
    | cons a' as =>
      simp only [mismatchesAux, List.mem_append, ih]
      constructor
      · rintro (h | ⟨j, hj, he, ha, hne⟩)
        · by_cases hne : e' = a'
          · simp [hne] at h
          · simp [hne] at h
            exact ⟨0, by omega, by simp [h.2.1], by simp [h.2.2], h.2.1 ▸ h.2.2 ▸ hne⟩
        · exact ⟨j + 1, by omega, by simpa using he, by simpa using ha, hne⟩
      · rintro ⟨j, hj, he, ha, hne⟩
        cases j with
        | zero =>
          left
          simp only [List.getElem?_cons_zero, Option.some_inj] at he ha
          subst he; subst ha
          simp [hne, hj]
        | succ j =>
          right
          exact ⟨j, by omega, by simpa using he, by simpa using ha, hne⟩

theorem mismatchesAux_self : ∀ (k : Nat) (l : List String), mismatchesAux k l l = []
  | _, [] => rfl
  | k, x :: l => by simp [mismatchesAux, mismatchesAux_self (k + 1) l]

/-- Claim C7, amended: `check_audio_order` emits the triple of index,
expected name and actual name exactly at the indices below the length of the
shorter list where the two lists differ; in particular the mismatch list is
empty when the lexicographically sorted .wav listing of the directory
coincides positionally with the expected list (the stronger phrasing of the
claim — that a directory listing exactly the expected names in the same
order always yields an empty list — fails because the verifier re-sorts the
filtered listing). -/
theorem c7_order_verifier (sorted_list listing : List String) :
    (∀ (i : Nat) (e a : String),
      ((i, e, a) ∈ check_audio_order sorted_list listing) ↔
        ((expectedOrder sorted_list)[i]? = some e ∧
          (actualFiles listing)[i]? = some a ∧ e ≠ a)) ∧
    (actualFiles listing = expectedOrder sorted_list →
      check_audio_order sorted_list listing = []) := by
  constructor
  · intro i e a
    rw [check_audio_order, mem_mismatchesAux]
    constructor
    · rintro ⟨j, hj, he, ha, hne⟩
      have hij : j = i := by omega
      subst hij
      exact ⟨he, ha, hne⟩
    · rintro ⟨he, ha, hne⟩
      exact ⟨i, by omega, he, ha, hne⟩
  · intro h
    rw [check_audio_order, h, mismatchesAux_self]

/-- Witness for the amended claim C7: a directory whose sorted .wav listing
equals the expected list produces no mismatches, and the mismatch membership
equivalence holds at index 0 of a differing pair. -/
theorem c7_order_verifier_witness :
    check_audio_order ["a.mp3", "b.mp3"] ["b.wav", "a.wav"] = [] ∧
    ((0, "a.wav", "b.wav") ∈ check_audio_order ["a.mp3"] ["b.wav"] ↔
      ((expectedOrder ["a.mp3"])[0]? = some "a.wav" ∧
        (actualFiles ["b.wav"])[0]? = some "b.wav" ∧ "a.wav" ≠ "b.wav")) :=
  ⟨(c7_order_verifier ["a.mp3", "b.mp3"] ["b.wav", "a.wav"]).2 (by decide),
   (c7_order_verifier ["a.mp3"] ["b.wav"]).1 0 "a.wav" "b.wav"⟩

/-- Claim C7, counterexample to the clause that a directory listing exactly
the expected names in the same order always yields an empty mismatch list:
with canonical order a.mp4, b.mp3 the expected list is a.mp4, b.wav; a
directory listing exactly those names in that order still yields a mismatch
at index 0, because the verifier filters the listing to .wav names and
re-sorts it, producing the singleton b.wav. -/
theorem c7_counterexample :
    ["a.mp4", "b.wav"] = expectedOrder ["a.mp4", "b.mp3"] ∧
    check_audio_order ["a.mp4", "b.mp3"] ["a.mp4", "b.wav"] =
      [(0, "a.mp4", "b.wav")] := by decide

theorem applyPerm_range {α : Type} : ∀ (xs : List α),
    applyPerm (List.range xs.length) xs = xs
  | [] => rfl
  | x :: xs => by
    rw [applyPerm, List.length_cons, List.range_succ_eq_map, List.filterMap_cons]
    simp only [List.getElem?_cons_zero]
    rw [List.filterMap_map]
    have : ((fun i => (x :: xs)[i]?) ∘ Nat.succ) = fun i => xs[i]? := by
      funext i
      simp [Function.comp]
    rw [this]
    exact congrArg (x :: ·) (applyPerm_range xs)

theorem applyPerm_perm {α : Type} (p : List Nat) (xs : List α)
    (h : p.Perm (List.range xs.length)) : (applyPerm p xs).Perm xs := by
  have h1 : (applyPerm p xs).Perm (applyPerm (List.range xs.length) xs) :=
    h.filterMap (fun i => xs[i]?)
  rw [applyPerm_range] at h1
  exact h1

theorem train_test_split_perm {α : Type} (perm : List Nat) (frac : ℚ) (xs : List α)
    (h : perm.Perm (List.range xs.length)) :
    ((train_test_split perm frac xs).2 ++ (train_test_split perm frac xs).1).Perm xs := by
  show ((applyPerm perm xs).take (Nat.ceil (frac * xs.length)) ++
    (applyPerm perm xs).drop (Nat.ceil (frac * xs.length))).Perm xs
  rw [List.take_append_drop]
  exact applyPerm_perm perm xs h

theorem split_triple_perm {α : Type} (S F : List α × List α) (df : List α)
    (h2 : (S.2 ++ S.1).Perm F.1) (h1 : (F.2 ++ F.1).Perm df) :
    (S.1 ++ S.2 ++ F.2).Perm df :=
  (List.perm_append_comm.append_right _).trans
    ((h2.append_right _).trans (List.perm_append_comm.trans h1))

/-- Claim C8: the Splitter partitions the filtered record set exhaustively —
train, valid and test concatenated are a permutation of the filtered rows,
hence the three lengths sum exactly to the number of filtered input rows;
when the filtered rows are distinct the three subsets are pairwise disjoint;
and the adjusted fraction of the second split satisfies, in exact fraction
arithmetic, that its share of the post-test remainder equals the requested
valid share of the original set. -/
theorem c8_split_partition (rng : Nat → Nat → List Nat) (seed : Nat)
    (rows : List (String × String)) (test_size valid_size : ℚ)
    (hperm : ∀ n : Nat, (rng seed n).Perm (List.range n)) :
    ((split_and_organize_dataset rng seed rows test_size valid_size).1 ++
        (split_and_organize_dataset rng seed rows test_size valid_size).2.1 ++
        (split_and_organize_dataset rng seed rows test_size valid_size).2.2).Perm
      (splitFilter rows) ∧
    (split_and_organize_dataset rng seed rows test_size valid_size).1.length +
        (split_and_organize_dataset rng seed rows test_size valid_size).2.1.length +
        (split_and_organize_dataset rng seed rows test_size valid_size).2.2.length =
      (splitFilter rows).length ∧
    ((splitFilter rows).Nodup →
      (split_and_organize_dataset rng seed rows test_size valid_size).1.Disjoint
        (split_and_organize_dataset rng seed rows test_size valid_size).2.1 ∧
      (split_and_organize_dataset rng seed rows test_size valid_size).1.Disjoint
        (split_and_organize_dataset rng seed rows test_size valid_size).2.2 ∧
      (split_and_organize_dataset rng seed rows test_size valid_size).2.1.Disjoint
        (split_and_organize_dataset rng seed rows test_size valid_size).2.2) ∧
    (test_size ≠ 1 →
      valid_size / (1 - test_size) * ((1 - test_size) * ((splitFilter rows).length : ℚ)) =
        valid_size * ((splitFilter rows).length : ℚ)) := by
  have h1 := train_test_split_perm (rng seed (splitFilter rows).length) test_size
    (splitFilter rows) (hperm _)
  have h2 := train_test_split_perm
    (rng seed (train_test_split (rng seed (splitFilter rows).length) test_size
      (splitFilter rows)).1.length)
    (valid_size / (1 - test_size))
    (train_test_split (rng seed (splitFilter rows).length) test_size (splitFilter rows)).1
    (hperm _)
  have hp : ((split_and_organize_dataset rng seed rows test_size valid_size).1 ++
      (split_and_organize_dataset rng seed rows test_size valid_size).2.1 ++
      (split_and_organize_dataset rng seed rows test_size valid_size).2.2).Perm
      (splitFilter rows) :=
    split_triple_perm
      (train_test_split
        (rng seed (train_test_split (rng seed (splitFilter rows).length) test_size
          (splitFilter rows)).1.length)
        (valid_size / (1 - test_size))
        (train_test_split (rng seed (splitFilter rows).length) test_size (splitFilter rows)).1)
      (train_test_split (rng seed (splitFilter rows).length) test_size (splitFilter rows))
      (splitFilter rows) h2 h1
  refine ⟨hp, ?_, ?_, ?_⟩
  · have := hp.length_eq
    simpa [Nat.add_assoc] using this
  · intro hnd
    have hnodup : ((split_and_organize_dataset rng seed rows test_size valid_size).1 ++
        (split_and_organize_dataset rng seed rows test_size valid_size).2.1 ++
        (split_and_organize_dataset rng seed rows test_size valid_size).2.2).Nodup :=
      hp.nodup_iff.mpr hnd
    rw [List.nodup_append, List.nodup_append, List.disjoint_append_left] at hnodup
    exact ⟨hnodup.1.2.2, hnodup.2.2.1, hnodup.2.2.2⟩
  · intro ht
    have h0 : (1 : ℚ) - test_size ≠ 0 := sub_ne_zero.mpr (Ne.symm ht)
    field_simp
    ring

/-- Witness for claim C8: with the identity permutation stream, seed 42 and
fractions one tenth, the three subsets of a three-row table have lengths
summing to 3. -/
theorem c8_split_partition_witness :
    (split_and_organize_dataset (fun _ n => List.range n) 42
        [("a.mp3", "sa"), ("b.mp3", "sb"), ("c.mp3", "sc")] (1/10) (1/10)).1.length +
      (split_and_organize_dataset (fun _ n => List.range n) 42
        [("a.mp3", "sa"), ("b.mp3", "sb"), ("c.mp3", "sc")] (1/10) (1/10)).2.1.length +
      (split_and_organize_dataset (fun _ n => List.range n) 42
        [("a.mp3", "sa"), ("b.mp3", "sb"), ("c.mp3", "sc")] (1/10) (1/10)).2.2.length = 3 :=
  ((c8_split_partition (fun _ n => List.range n) 42
    [("a.mp3", "sa"), ("b.mp3", "sb"), ("c.mp3", "sc")] (1/10) (1/10)
    (fun _ => List.Perm.refl _)).2.1).trans (by decide)

/-- Claim C9 (determinism as a noninterference property): the partition
depends on the PRNG only through the permutations it yields for the given
seed — two runs whose generators agree at that seed, on the same input table
and the same fractions, produce identical train, valid and test
partitions. -/
theorem c9_split_deterministic (rng1 rng2 : Nat → Nat → List Nat) (seed : Nat)
    (rows : List (String × String)) (test_size valid_size : ℚ)
    (h : ∀ n : Nat, rng1 seed n = rng2 seed n) :
    split_and_organize_dataset rng1 seed rows test_size valid_size =
      split_and_organize_dataset rng2 seed rows test_size valid_size := by
  unfold split_and_organize_dataset
  simp only [h]

/-- Witness for claim C9: a generator defined only at seed 42 yields the
same partition as the total identity-permutation generator. -/
theorem c9_split_deterministic_witness :
    split_and_organize_dataset (fun _ n => List.range n) 42
        [("a.mp3", "sa"), ("b.mp3", "sb")] (1/10) (1/10) =
      split_and_organize_dataset (fun s n => if s = 42 then List.range n else []) 42
        [("a.mp3", "sa"), ("b.mp3", "sb")] (1/10) (1/10) :=
  c9_split_deterministic (fun _ n => List.range n)
    (fun s n => if s = 42 then List.range n else []) 42
    [("a.mp3", "sa"), ("b.mp3", "sb")] (1/10) (1/10) (fun _ => rfl)

theorem pyReplaceGo_skip_drop (pat rep : List Char) :
    ∀ (cs : List Char) (k : Nat), pyReplaceGo pat rep cs k = pyReplaceGo pat rep (cs.drop k) 0
  | [], k => by cases k <;> rfl
  | c :: cs, 0 => rfl
  | c :: cs, k + 1 => by
    rw [List.drop_succ_cons]
    exact pyReplaceGo_skip_drop pat rep cs k

theorem pyReplace_cons_pos (pat rep : List Char) (c : Char) (cs : List Char)
    (hne : pat ≠ []) (hp : pat.isPrefixOf (c :: cs) = true) :
    pyReplace pat rep (c :: cs) = rep ++ pyReplace pat rep (cs.drop (pat.length - 1)) := by
  rw [pyReplace, pyReplaceGo, if_pos ⟨hne, hp⟩, pyReplaceGo_skip_drop]
  rfl

theorem pyReplace_cons_neg (pat rep : List Char) (c : Char) (cs : List Char)
    (hp : pat.isPrefixOf (c :: cs) = false) :
    pyReplace pat rep (c :: cs) = c :: pyReplace pat rep cs := by
  rw [pyReplace, pyReplaceGo, if_neg (by simp [hp])]
  rfl

theorem pyReplace_of_not_contains (pat rep : List Char) :
    ∀ s : List Char, containsSub pat s = false → pyReplace pat rep s = s
  | [], _ => rfl
  | c :: cs, h => by
    rw [containsSub, Bool.or_eq_false_iff] at h
    rw [pyReplace_cons_neg pat rep c cs h.1]
    exact congrArg (c :: ·) (pyReplace_of_not_contains pat rep cs h.2)

theorem pyReplace_head_transfer (ch : Char) (hch : ch ≠ '.') :
    ∀ (t r : List Char), pyReplace mp3Chars wavChars t = ch :: r →
      ∃ t2, t = ch :: t2 ∧ pyReplace mp3Chars wavChars t2 = r := by
  intro t r h
  cases t with
  | nil => exact absurd h (by simp [pyReplace, pyReplaceGo])
  | cons c cs =>
    rcases hp : mp3Chars.isPrefixOf (c :: cs) with _ | _
    · rw [pyReplace_cons_neg _ _ _ _ hp] at h
      injection h with h1 h2
      exact ⟨cs, by rw [h1], h2⟩
    · rw [pyReplace_cons_pos _ _ _ _ (by simp [mp3Chars]) hp, wavChars] at h
      simp only [List.cons_append] at h
      injection h with h1 _
      exact absurd h1.symm hch

theorem pyReplace_no_mp3_head (c : Char) (cs : List Char)
    (hp : mp3Chars.isPrefixOf (c :: cs) = false) :
    mp3Chars.isPrefixOf (c :: pyReplace mp3Chars wavChars cs) = false := by
  rcases hcontra : mp3Chars.isPrefixOf (c :: pyReplace mp3Chars wavChars cs) with _ | _
  · rfl
  · exfalso
    rw [ List.isPrefixOf_iff_prefix] at hcontra
    rcases hcontra with ⟨u, hu⟩
    rw [mp3Chars] at hu
    simp only [List.cons_append, List.nil_append, List.cons.injEq] at hu
    obtain ⟨hc, hm⟩ := hu
    obtain ⟨t1, ht1, hr1⟩ :=
      pyReplace_head_transfer 'm' (by decide) cs ('p' :: '3' :: u) hm.symm
    obtain ⟨t2, ht2, hr2⟩ := pyReplace_head_transfer 'p' (by decide) t1 ('3' :: u) hr1
    obtain ⟨t3, ht3, _⟩ := pyReplace_head_transfer '3' (by decide) t2 u hr2
    subst hc
    rw [ht1, ht2, ht3] at hp
    simp [mp3Chars, List.isPrefixOf] at hp

theorem containsSub_wav_append (r : List Char) :
    containsSub mp3Chars (wavChars ++ r) = containsSub mp3Chars r := by
  rw [wavChars]
  simp only [List.cons_append, List.nil_append, containsSub]
  simp [mp3Chars, List.isPrefixOf]

theorem pyReplace_result_not_contains :
    ∀ (n : Nat) (s : List Char), s.length ≤ n →
      containsSub mp3Chars (pyReplace mp3Chars wavChars s) = false
  | _, [], _ => rfl
  | 0, c :: cs, h => absurd h (by simp)
  | n + 1, c :: cs, h => by
    rcases hp : mp3Chars.isPrefixOf (c :: cs) with _ | _
    · rw [pyReplace_cons_neg _ _ _ _ hp, containsSub, Bool.or_eq_false_iff]
      refine ⟨pyReplace_no_mp3_head c cs hp, ?_⟩
      exact pyReplace_result_not_contains n cs (by simpa using h)
    · rw [pyReplace_cons_pos _ _ _ _ (by simp [mp3Chars]) hp, containsSub_wav_append]
      refine pyReplace_result_not_contains n (cs.drop (mp3Chars.length - 1)) ?_
      have := List.length_drop (mp3Chars.length - 1) cs
      simp only [List.length_cons] at h
      omega

/-- Claim C10: the name mapping used by every stage (replacement of .mp3 by
the target extension) rewrites every occurrence of the substring .mp3,
interior ones included — nothing of .mp3 survives in the mapped name — while
a path with no .mp3 occurrence passes through unchanged (for any configured
target extension); a path with two interior occurrences is rewritten at both
places. -/
theorem c10_replace_every_occurrence :
    (∀ (ext s : String), containsSub mp3Chars s.data = false →
      pyReplaceS ".mp3" ext s = s) ∧
    (∀ s : String, containsSub mp3Chars (pyReplaceS ".mp3" ".wav" s).data = false) ∧
    pyReplaceS ".mp3" ".wav" "a.mp3b.mp3c" = "a.wavb.wavc" := by
  refine ⟨fun ext s h => ?_, fun s => ?_, by decide⟩
  · exact congrArg String.mk (pyReplace_of_not_contains mp3Chars ext.data s.data h)
  · exact pyReplace_result_not_contains s.data.length s.data le_rfl

/-- Witness for claim C10: a path without the substring .mp3 is unchanged by
the mapping. -/
theorem c10_replace_every_occurrence_witness :
    pyReplaceS ".mp3" ".wav" "common_voice.ogg" = "common_voice.ogg" :=
  c10_replace_every_occurrence.1 ".wav" "common_voice.ogg" (by decide)
